import Mathlib

/-!
Shallow embedding of the workout_api CRUD controllers
(src/workout_api/categorias/controller.py and
src/workout_api/centro_treinamento/controller.py).

The two controller modules are line-for-line duplicates of each other up to
entity and field names, so the embedding is written once.  A store is the
entity's table: a list of rows.  SQLAlchemy's
`select(Model).filter_by(...).scalars().first()` is `List.find?`;
`.scalars().all()` is the whole list; `session.add` + `commit` appends a row;
the `setattr` loop + `commit` on an ORM object writes the mutated row back at
its primary key; `session.delete` + `commit` removes the row at its primary
key.  UUIDs are modelled as `Nat`; the value produced by `uuid4()` is passed
in explicitly as `newId`.  Each handler returns its response paired with the
store after the request, and an `HTTPException` is a typed `Failure`.
-/

namespace WorkoutApi

/-- One stored row (`CategoriaModel` / `CentroTreinamentoModel`, mirrored by
the `Out` schema).  Modelled from the spec: the schema/model files are not
under src/; the spec gives identity `id` plus `nome` and additional
descriptive attributes (address, owner for Training Center), so the row
carries `id`, `nome` and two descriptive fields. -/
structure Record where
  id : Nat
  nome : String
  endereco : String
  proprietario : String
deriving DecidableEq

/-- The create payload (`CategoriaIn` / `CentroTreinamentoIn`).  Modelled
from the spec: every field present in both input and output representations,
required on create. -/
structure RecordIn where
  nome : String
  endereco : String
  proprietario : String
deriving DecidableEq

/-- The patch payload as seen by the handlers after
`model_dump(exclude_unset=True)`: only the fields the client set are present.
Modelled from the spec: fields are optional on update. -/
structure RecordUpdate where
  nome : Option String
  endereco : Option String
  proprietario : Option String
deriving DecidableEq

/-- The typed failures the handlers raise (`HTTPException` status codes
404, 409, 500). -/
inductive Failure where
  | notFound
  | conflict
  | internalError
deriving DecidableEq

/-- The entity's table. -/
abbrev Store := List Record

/-- `select(Model).filter_by(id=i)).scalars().first()`. -/
def findById (s : Store) (i : Nat) : Option Record :=
  s.find? (fun r => r.id == i)

/-- `select(Model).filter_by(nome=n)).scalars().first()`. -/
def findByNome (s : Store) (n : String) : Option Record :=
  s.find? (fun r => r.nome == n)

/-- `Out(id=uuid4(), **input.model_dump())`: the full output representation
built from a fresh id and the create payload. -/
def mkOut (newId : Nat) (inp : RecordIn) : Record :=
  { id := newId, nome := inp.nome, endereco := inp.endereco,
    proprietario := inp.proprietario }

/-- POST `/` (controller.py `post`, categorias lines 18-46 / centro lines
18-46): look up the payload's `nome`; on a hit raise 409 Conflict; otherwise
build the output row with a fresh id, add it and commit, and return it.
`newId` stands for the value of `uuid4()`.  The `except` branch raising 500
when the store write itself fails is not modelled: the store is assumed
reliable. -/
def post (s : Store) (newId : Nat) (inp : RecordIn) :
    Except Failure Record × Store :=
  match findByNome s inp.nome with
  | some _ => (.error .conflict, s)
  | none =>
    let out := mkOut newId inp
    (.ok out, s ++ [out])

/-- GET `/` (controller.py `query`, categorias lines 56-65): select every
row; raise 404 if the result is empty, otherwise return all rows. -/
def queryAll (s : Store) : Except Failure (List Record) × Store :=
  if s.isEmpty then (.error .notFound, s) else (.ok s, s)

/-- GET `/{id}` (controller.py `get`): 404 when no row has the id. -/
def get (s : Store) (i : Nat) : Except Failure Record × Store :=
  match findById s i with
  | none => (.error .notFound, s)
  | some r => (.ok r, s)

/-- GET `/nome/{nome}` (controller.py `get_by_nome` / `get_by_name`):
404 when no row has that exact name. -/
def getByNome (s : Store) (n : String) : Except Failure Record × Store :=
  match findByNome s n with
  | none => (.error .notFound, s)
  | some r => (.ok r, s)

/-- The page object `fastapi_pagination.Page`: items plus metadata. -/
structure PageOut where
  items : List Record
  total : Nat
  page : Nat
  size : Nat
deriving DecidableEq

/-- Modelled from the spec / library: `fastapi_pagination.paginate` called
with no explicit params paginates with the library's own default parameters
(page 1, size 50), independent of the handler's arguments. -/
def paginateDefault (l : List Record) : PageOut :=
  { items := l.take 50, total := l.length, page := 1, size := 50 }

/-- GET `/categorias/` resp. `/centros_treinamento/` (the paginated `query`,
categorias lines 106-122 / centro lines 108-124): the handler declares
`limit` and `offset` query parameters but its body never reads them — it
executes the unfiltered select and hands the whole result to `paginate`,
which uses the library defaults. -/
def queryPaginated (s : Store) (limit offset : Nat) : PageOut × Store :=
  (paginateDefault s, s)

/-- The `for key, value in update.items(): setattr(record, key, value)` loop:
every field present in the patch overwrites the row's field; absent fields
are untouched.  The payload carries no `id`, so `id` is never assigned. -/
def applyUpdate (r : Record) (u : RecordUpdate) : Record :=
  { r with
    nome := u.nome.getD r.nome
    endereco := u.endereco.getD r.endereco
    proprietario := u.proprietario.getD r.proprietario }

/-- Committing a mutated ORM object: the row whose primary key is `i` is
replaced by `r'`.  (`id` is the primary key, so at most one row matches.) -/
def replaceFirstById (s : Store) (i : Nat) (r' : Record) : Store :=
  match s with
  | [] => []
  | x :: xs => if x.id == i then r' :: xs else x :: replaceFirstById xs i r'

/-- `session.delete` + `commit`: the row whose primary key is `i` is
removed. -/
def removeFirstById (s : Store) (i : Nat) : Store :=
  match s with
  | [] => []
  | x :: xs => if x.id == i then xs else x :: removeFirstById xs i

/-- PATCH `/{id}` (controller.py `patch`, categorias lines 131-149 / centro
lines 158-176): find the row by id, 404 if absent; apply exactly the set
fields of the patch; commit and refresh; return the refreshed row.  No
uniqueness check is made on a patched `nome`. -/
def patch (s : Store) (i : Nat) (u : RecordUpdate) :
    Except Failure Record × Store :=
  match findById s i with
  | none => (.error .notFound, s)
  | some r =>
    let r' := applyUpdate r u
    (.ok r', replaceFirstById s i r')

/-- PATCH `/nome/{nome}` (controller.py `patch_by_nome` / `patch_by_name`,
categorias lines 157-175 / centro lines 126-150): same as `patch`, keyed by
name; the write-back still happens at the found row's primary key. -/
def patchByNome (s : Store) (n : String) (u : RecordUpdate) :
    Except Failure Record × Store :=
  match findByNome s n with
  | none => (.error .notFound, s)
  | some r =>
    let r' := applyUpdate r u
    (.ok r', replaceFirstById s r.id r')

/-- DELETE `/{id}` (controller.py `delete`, categorias lines 183-195): find
by id, 404 if absent, otherwise delete the row and commit. -/
def deleteById (s : Store) (i : Nat) : Except Failure Unit × Store :=
  match findById s i with
  | none => (.error .notFound, s)
  | some _ => (.ok (), removeFirstById s i)

/-- DELETE `/nome/{nome}` (controller.py `delete_by_nome` /
`delete_by_name`): find by name, 404 if absent, otherwise delete that row at
its primary key and commit. -/
def deleteByNome (s : Store) (n : String) : Except Failure Unit × Store :=
  match findByNome s n with
  | none => (.error .notFound, s)
  | some r => (.ok (), removeFirstById s r.id)

/-- `id` is the UUID primary key of the table: no two rows share it. -/
def idsNodup (s : Store) : Prop :=
  (s.map Record.id).Nodup

instance (s : Store) : Decidable (idsNodup s) :=
  inferInstanceAs (Decidable (List.Nodup _))

/-- The spec's per-entity invariant: no two stored rows share the same
`nome`. -/
def nomesNodup (s : Store) : Prop :=
  (s.map Record.nome).Nodup

instance (s : Store) : Decidable (nomesNodup s) :=
  inferInstanceAs (Decidable (List.Nodup _))

/-- A store of twelve records with pairwise distinct ids and nomes, the
population used in the spec's pagination scenario. -/
def s12 : Store :=
  (List.range 12).map (fun k => { id := k, nome := toString k,
                                  endereco := "e", proprietario := "p" })

/-! ### Basic lemmas about the store primitives -/

theorem findById_eq_none {s : Store} {i : Nat} :
    findById s i = none ↔ ∀ x ∈ s, x.id ≠ i := by
  unfold findById
  rw [List.find?_eq_none]
  simp

theorem findByNome_eq_none {s : Store} {n : String} :
    findByNome s n = none ↔ ∀ x ∈ s, x.nome ≠ n := by
  unfold findByNome
  rw [List.find?_eq_none]
  simp

theorem findById_decomp {s : Store} {i : Nat} {r : Record}
    (h : findById s i = some r) :
    r.id = i ∧ ∃ a b, s = a ++ r :: b ∧ ∀ x ∈ a, x.id ≠ i := by
  unfold findById at h
  rw [List.find?_eq_some] at h
  obtain ⟨hp, a, b, hs, ha⟩ := h
  exact ⟨by simpa using hp, a, b, hs, fun x hx => by simpa using ha x hx⟩

theorem findByNome_decomp {s : Store} {n : String} {r : Record}
    (h : findByNome s n = some r) :
    r.nome = n ∧ ∃ a b, s = a ++ r :: b ∧ ∀ x ∈ a, x.nome ≠ n := by
  unfold findByNome at h
  rw [List.find?_eq_some] at h
  obtain ⟨hp, a, b, hs, ha⟩ := h
  exact ⟨by simpa using hp, a, b, hs, fun x hx => by simpa using ha x hx⟩

theorem replaceFirstById_append {a : Store} (b : Store) {r : Record}
    (r' : Record) {i : Nat} (ha : ∀ x ∈ a, x.id ≠ i) (hr : r.id = i) :
    replaceFirstById (a ++ r :: b) i r' = a ++ r' :: b := by
  induction a with
  | nil => simp [replaceFirstById, hr]
  | cons x xs ih =>
    have hx : x.id ≠ i := ha x (by simp)
    simp only [List.cons_append, replaceFirstById]
    rw [if_neg (by simpa using hx)]
    simp only [List.append_eq]
    rw [ih (fun y hy => ha y (by simp [hy]))]

theorem removeFirstById_append {a : Store} (b : Store) {r : Record}
    {i : Nat} (ha : ∀ x ∈ a, x.id ≠ i) (hr : r.id = i) :
    removeFirstById (a ++ r :: b) i = a ++ b := by
  induction a with
  | nil => simp [removeFirstById, hr]
  | cons x xs ih =>
    have hx : x.id ≠ i := ha x (by simp)
    simp only [List.cons_append, removeFirstById]
    rw [if_neg (by simpa using hx)]
    simp only [List.append_eq]
    rw [ih (fun y hy => ha y (by simp [hy]))]

theorem removeFirstById_sublist (s : Store) (i : Nat) :
    List.Sublist (removeFirstById s i) s := by
  induction s with
  | nil => exact List.Sublist.refl _
  | cons x xs ih =>
    simp only [removeFirstById]
    split
    · exact List.sublist_cons_self x xs
    · exact ih.cons₂ x

theorem replaceFirstById_map_id {r' : Record} {i : Nat} (s : Store)
    (h : r'.id = i) :
    (replaceFirstById s i r').map Record.id = s.map Record.id := by
  induction s with
  | nil => rfl
  | cons x xs ih =>
    simp only [replaceFirstById]
    split
    · next hx =>
      have hx2 : x.id = i := by simpa using hx
      simp [List.map_cons, h, hx2]
    · simp [List.map_cons, ih]

theorem applyUpdate_id (r : Record) (u : RecordUpdate) :
    (applyUpdate r u).id = r.id := rfl

theorem decomp_ids_ne {s a b : Store} {r : Record}
    (hids : idsNodup s) (hs : s = a ++ r :: b) :
    (∀ x ∈ a, x.id ≠ r.id) ∧ (∀ x ∈ b, x.id ≠ r.id) := by
  have hnd : ((a.map Record.id) ++ r.id :: (b.map Record.id)).Nodup := by
    rw [hs] at hids
    simpa [idsNodup] using hids
  have h2 := (List.nodup_cons.mp (List.nodup_middle.mp hnd)).1
  constructor <;> intro x hx hxe
  · exact h2 (List.mem_append.mpr (Or.inl (hxe ▸ List.mem_map_of_mem Record.id hx)))
  · exact h2 (List.mem_append.mpr (Or.inr (hxe ▸ List.mem_map_of_mem Record.id hx)))

theorem decomp_nomes {s a b : Store} {r : Record}
    (hn : nomesNodup s) (hs : s = a ++ r :: b) :
    r.nome ∉ (a.map Record.nome) ++ (b.map Record.nome) ∧
    ((a.map Record.nome) ++ (b.map Record.nome)).Nodup := by
  have hnd : ((a.map Record.nome) ++ r.nome :: (b.map Record.nome)).Nodup := by
    rw [hs] at hn
    simpa [nomesNodup] using hn
  exact List.nodup_cons.mp (List.nodup_middle.mp hnd)

/-! ### The claims -/

/-- C2: the paginated listing cannot behave as claimed.  The handler's body
never reads its `limit` and `offset` parameters, so the returned page is
identical for every choice of them; over the twelve-record store `s12` the
call with limit 5 and offset 0 returns a page holding all 12 items (the
library default size is 50), not 5, while the total metadata is 12. -/
theorem C2_page_ignores_limit_offset :
    (∀ s limit offset limit2 offset2,
      queryPaginated s limit offset = queryPaginated s limit2 offset2) ∧
    (queryPaginated s12 5 0).1.items.length = 12 ∧
    (queryPaginated s12 5 0).1.total = 12 :=
  ⟨fun _ _ _ _ _ => rfl, rfl, rfl⟩

/-- C4: for every Create input, if a record with exactly the same `nome`
(case-sensitive exact string match) already exists, Create fails with
Conflict and inserts nothing — the store is returned unchanged; otherwise
Create builds the output representation carrying the fresh id, appends it to
the store, and returns it. -/
theorem C4_create_conflict_or_insert (s : Store) (newId : Nat)
    (inp : RecordIn) :
    (∀ r, findByNome s inp.nome = some r →
      post s newId inp = (.error .conflict, s)) ∧
    (findByNome s inp.nome = none →
      post s newId inp = (.ok (mkOut newId inp), s ++ [mkOut newId inp])) := by
  constructor
  · intro r h
    simp [post, h]
  · intro h
    simp [post, h]

theorem C4_create_conflict_or_insert_witness :
    post [⟨0, "cardio", "e", "p"⟩] 1 ⟨"cardio", "e", "p"⟩ =
      (.error .conflict, [⟨0, "cardio", "e", "p"⟩]) ∧
    post [⟨0, "cardio", "e", "p"⟩] 1 ⟨"Cardio", "e", "p"⟩ =
      (.ok ⟨1, "Cardio", "e", "p"⟩,
        [⟨0, "cardio", "e", "p"⟩, ⟨1, "Cardio", "e", "p"⟩]) :=
  ⟨(C4_create_conflict_or_insert [⟨0, "cardio", "e", "p"⟩] 1
      ⟨"cardio", "e", "p"⟩).1 ⟨0, "cardio", "e", "p"⟩ rfl,
   (C4_create_conflict_or_insert [⟨0, "cardio", "e", "p"⟩] 1
      ⟨"Cardio", "e", "p"⟩).2 rfl⟩

/-- C6: ListAll fails with NotFound exactly when the store holds no records;
otherwise it returns every stored record. -/
theorem C6_list_all_notfound_iff_empty (s : Store) :
    (s = [] → queryAll s = (.error .notFound, s)) ∧
    (s ≠ [] → queryAll s = (.ok s, s)) := by
  constructor
  · intro h
    subst h
    rfl
  · intro h
    simp [queryAll, h]

theorem C6_list_all_notfound_iff_empty_witness :
    queryAll [] = (.error .notFound, []) ∧
    queryAll [⟨0, "A", "e", "p"⟩] =
      (.ok [⟨0, "A", "e", "p"⟩], [⟨0, "A", "e", "p"⟩]) :=
  ⟨(C6_list_all_notfound_iff_empty []).1 rfl,
   (C6_list_all_notfound_iff_empty [⟨0, "A", "e", "p"⟩]).2 (by decide)⟩

/-- C9: a record's id is immutable after creation: neither update operation
changes the multiset of stored ids (the patch payload carries no id field,
and the merge keeps the row's id). -/
theorem C9_id_immutable (s : Store) (i : Nat) (m : String)
    (u : RecordUpdate) :
    (patch s i u).2.map Record.id = s.map Record.id ∧
    (patchByNome s m u).2.map Record.id = s.map Record.id := by
  constructor
  · cases hf : findById s i with
    | none => simp [patch, hf]
    | some r =>
      have hr := (findById_decomp hf).1
      simp only [patch, hf]
      exact replaceFirstById_map_id s (by rw [applyUpdate_id, hr])
  · cases hf : findByNome s m with
    | none => simp [patchByNome, hf]
    | some r =>
      simp only [patchByNome, hf]
      exact replaceFirstById_map_id s (applyUpdate_id r u)

/-- C10: failure atomicity — whenever a mutating operation fails, the
failure is raised before any insert, field assignment, delete or commit, so
the store returned with the failure is exactly the store before the call.
(The read operations never modify the store at all.) -/
theorem C10_failure_atomicity (s : Store) (newId i : Nat) (m : String)
    (inp : RecordIn) (u : RecordUpdate) :
    (∀ e, (post s newId inp).1 = .error e → (post s newId inp).2 = s) ∧
    (∀ e, (patch s i u).1 = .error e → (patch s i u).2 = s) ∧
    (∀ e, (patchByNome s m u).1 = .error e → (patchByNome s m u).2 = s) ∧
    (∀ e, (deleteById s i).1 = .error e → (deleteById s i).2 = s) ∧
    (∀ e, (deleteByNome s m).1 = .error e → (deleteByNome s m).2 = s) := by
  refine ⟨?_, ?_, ?_, ?_, ?_⟩ <;> intro e h
  · cases hf : findByNome s inp.nome with
    | none => simp [post, hf] at h
    | some r => simp [post, hf]
  · cases hf : findById s i with
    | none => simp [patch, hf]
    | some r => simp [patch, hf] at h
  · cases hf : findByNome s m with
    | none => simp [patchByNome, hf]
    | some r => simp [patchByNome, hf] at h
  · cases hf : findById s i with
    | none => simp [deleteById, hf]
    | some r => simp [deleteById, hf] at h
  · cases hf : findByNome s m with
    | none => simp [deleteByNome, hf]
    | some r => simp [deleteByNome, hf] at h

theorem C10_failure_atomicity_witness :
    (post [⟨0, "A", "e", "p"⟩] 1 ⟨"A", "e", "p"⟩).2 = [⟨0, "A", "e", "p"⟩] ∧
    (patch [] 0 ⟨none, none, none⟩).2 = [] ∧
    (patchByNome [] "A" ⟨none, none, none⟩).2 = [] ∧
    (deleteById [] 0).2 = [] ∧
    (deleteByNome [] "A").2 = [] :=
  ⟨(C10_failure_atomicity [⟨0, "A", "e", "p"⟩] 1 0 "A" ⟨"A", "e", "p"⟩
      ⟨none, none, none⟩).1 .conflict rfl,
   (C10_failure_atomicity [] 1 0 "A" ⟨"A", "e", "p"⟩
      ⟨none, none, none⟩).2.1 .notFound rfl,
   (C10_failure_atomicity [] 1 0 "A" ⟨"A", "e", "p"⟩
      ⟨none, none, none⟩).2.2.1 .notFound rfl,
   (C10_failure_atomicity [] 1 0 "A" ⟨"A", "e", "p"⟩
      ⟨none, none, none⟩).2.2.2.1 .notFound rfl,
   (C10_failure_atomicity [] 1 0 "A" ⟨"A", "e", "p"⟩
      ⟨none, none, none⟩).2.2.2.2 .notFound rfl⟩

/-- C3: the update handlers perform no uniqueness re-check on a patched
name: whenever the record keyed by id (resp. by name) exists, and the patch
sets `nome` to the `nome` of a different existing record, the update
succeeds — it returns the merged record and the written-back store, and in
particular never fails with Conflict. -/
theorem C3_update_no_uniqueness_recheck (s : Store) (i : Nat) (m : String)
    (u : RecordUpdate) (x : Record) (hx : x ∈ s) (hu : u.nome = some x.nome) :
    (∀ r, findById s i = some r → x ≠ r →
      patch s i u =
        (.ok (applyUpdate r u), replaceFirstById s i (applyUpdate r u))) ∧
    (∀ r, findByNome s m = some r → x ≠ r →
      patchByNome s m u =
        (.ok (applyUpdate r u), replaceFirstById s r.id (applyUpdate r u))) := by
  constructor
  · intro r hr _
    simp [patch, hr]
  · intro r hr _
    simp [patchByNome, hr]

theorem C3_update_no_uniqueness_recheck_witness :
    patch [⟨0, "A", "e", "p"⟩, ⟨1, "B", "e", "p"⟩] 0 ⟨some "B", none, none⟩ =
      (.ok ⟨0, "B", "e", "p"⟩, [⟨0, "B", "e", "p"⟩, ⟨1, "B", "e", "p"⟩]) ∧
    patchByNome [⟨0, "A", "e", "p"⟩, ⟨1, "B", "e", "p"⟩] "A"
        ⟨some "B", none, none⟩ =
      (.ok ⟨0, "B", "e", "p"⟩, [⟨0, "B", "e", "p"⟩, ⟨1, "B", "e", "p"⟩]) :=
  ⟨(C3_update_no_uniqueness_recheck [⟨0, "A", "e", "p"⟩, ⟨1, "B", "e", "p"⟩]
      0 "A" ⟨some "B", none, none⟩ ⟨1, "B", "e", "p"⟩ (by decide) rfl).1
      ⟨0, "A", "e", "p"⟩ rfl (by decide),
   (C3_update_no_uniqueness_recheck [⟨0, "A", "e", "p"⟩, ⟨1, "B", "e", "p"⟩]
      0 "A" ⟨some "B", none, none⟩ ⟨1, "B", "e", "p"⟩ (by decide) rfl).2
      ⟨0, "A", "e", "p"⟩ rfl (by decide)⟩

/-- C5: for every existing record and every patch, UpdateById merges exactly
the fields present in the patch onto the record and leaves every absent
field (and the id) unchanged, persists the merged record, and returns it. -/
theorem C5_partial_update (s : Store) (i : Nat) (u : RecordUpdate)
    (r : Record) (hfind : findById s i = some r) :
    patch s i u =
      (.ok (applyUpdate r u), replaceFirstById s i (applyUpdate r u)) ∧
    (applyUpdate r u).id = r.id ∧
    (u.nome = none → (applyUpdate r u).nome = r.nome) ∧
    (∀ v, u.nome = some v → (applyUpdate r u).nome = v) ∧
    (u.endereco = none → (applyUpdate r u).endereco = r.endereco) ∧
    (∀ v, u.endereco = some v → (applyUpdate r u).endereco = v) ∧
    (u.proprietario = none →
      (applyUpdate r u).proprietario = r.proprietario) ∧
    (∀ v, u.proprietario = some v → (applyUpdate r u).proprietario = v) := by
  refine ⟨by simp [patch, hfind], rfl, ?_, ?_, ?_, ?_, ?_, ?_⟩
  · intro h
    simp [applyUpdate, h]
  · intro v h
    simp [applyUpdate, h]
  · intro h
    simp [applyUpdate, h]
  · intro v h
    simp [applyUpdate, h]
  · intro h
    simp [applyUpdate, h]
  · intro v h
    simp [applyUpdate, h]

theorem C5_partial_update_witness :
    patch [⟨0, "A", "e", "p"⟩] 0 ⟨some "B", none, none⟩ =
      (.ok ⟨0, "B", "e", "p"⟩, [⟨0, "B", "e", "p"⟩]) ∧
    (applyUpdate ⟨0, "A", "e", "p"⟩ ⟨some "B", none, none⟩).endereco = "e" ∧
    (applyUpdate ⟨0, "A", "e", "p"⟩ ⟨some "B", none, none⟩).nome = "B" :=
  ⟨(C5_partial_update [⟨0, "A", "e", "p"⟩] 0 ⟨some "B", none, none⟩
      ⟨0, "A", "e", "p"⟩ rfl).1,
   (C5_partial_update [⟨0, "A", "e", "p"⟩] 0 ⟨some "B", none, none⟩
      ⟨0, "A", "e", "p"⟩ rfl).2.2.2.2.1 rfl,
   (C5_partial_update [⟨0, "A", "e", "p"⟩] 0 ⟨some "B", none, none⟩
      ⟨0, "A", "e", "p"⟩ rfl).2.2.2.1 "B" rfl⟩

/-- C7: Create with a `nome` not yet stored and an id distinct from all
stored ids (the fresh UUID) succeeds, the returned record carries that fresh
id, and a subsequent GetById with that id or GetByName with that `nome` on
the new store returns exactly the record Create returned. -/
theorem C7_create_then_get (s : Store) (newId : Nat) (inp : RecordIn)
    (hnome : findByNome s inp.nome = none)
    (hfresh : ∀ x ∈ s, x.id ≠ newId) :
    post s newId inp = (.ok (mkOut newId inp), s ++ [mkOut newId inp]) ∧
    (mkOut newId inp).id = newId ∧
    (∀ x ∈ s, x.id ≠ (mkOut newId inp).id) ∧
    get (s ++ [mkOut newId inp]) newId =
      (.ok (mkOut newId inp), s ++ [mkOut newId inp]) ∧
    getByNome (s ++ [mkOut newId inp]) inp.nome =
      (.ok (mkOut newId inp), s ++ [mkOut newId inp]) := by
  have hid : findById (s ++ [mkOut newId inp]) newId = some (mkOut newId inp) := by
    unfold findById
    rw [List.find?_append]
    have h1 : s.find? (fun r => r.id == newId) = none := by
      rw [List.find?_eq_none]
      intro x hx
      simpa using hfresh x hx
    rw [h1]
    simp [mkOut]
  have hnm : findByNome (s ++ [mkOut newId inp]) inp.nome
      = some (mkOut newId inp) := by
    unfold findByNome
    rw [List.find?_append]
    have h1 : s.find? (fun r => r.nome == inp.nome) = none := by
      simpa [findByNome] using hnome
    rw [h1]
    simp [mkOut]
  refine ⟨by simp [post, hnome], rfl, fun x hx => hfresh x hx,
    by simp [get, hid], by simp [getByNome, hnm]⟩

theorem C7_create_then_get_witness :
    post [⟨0, "A", "e", "p"⟩] 1 ⟨"B", "e", "p"⟩ =
      (.ok ⟨1, "B", "e", "p"⟩, [⟨0, "A", "e", "p"⟩, ⟨1, "B", "e", "p"⟩]) ∧
    get [⟨0, "A", "e", "p"⟩, ⟨1, "B", "e", "p"⟩] 1 =
      (.ok ⟨1, "B", "e", "p"⟩, [⟨0, "A", "e", "p"⟩, ⟨1, "B", "e", "p"⟩]) ∧
    getByNome [⟨0, "A", "e", "p"⟩, ⟨1, "B", "e", "p"⟩] "B" =
      (.ok ⟨1, "B", "e", "p"⟩, [⟨0, "A", "e", "p"⟩, ⟨1, "B", "e", "p"⟩]) :=
  ⟨(C7_create_then_get [⟨0, "A", "e", "p"⟩] 1 ⟨"B", "e", "p"⟩ rfl
      (by decide)).1,
   (C7_create_then_get [⟨0, "A", "e", "p"⟩] 1 ⟨"B", "e", "p"⟩ rfl
      (by decide)).2.2.2.1,
   (C7_create_then_get [⟨0, "A", "e", "p"⟩] 1 ⟨"B", "e", "p"⟩ rfl
      (by decide)).2.2.2.2⟩

/-- C8: on a store with unique primary keys, DeleteById on an id with no
record itself fails with NotFound and changes nothing, while DeleteById on
an existing id succeeds and a subsequent GetById with the same id on the
resulting store fails with NotFound. -/
theorem C8_delete_then_get (s : Store) (i : Nat) (hids : idsNodup s) :
    (findById s i = none → deleteById s i = (.error .notFound, s)) ∧
    (∀ r, findById s i = some r →
      deleteById s i = (.ok (), removeFirstById s i) ∧
      get (removeFirstById s i) i =
        (.error .notFound, removeFirstById s i)) := by
  constructor
  · intro h
    simp [deleteById, h]
  · intro r h
    refine ⟨by simp [deleteById, h], ?_⟩
    obtain ⟨hr, a, b, hs, ha⟩ := findById_decomp h
    have hb : ∀ x ∈ b, x.id ≠ i := by
      intro x hx
      rw [← hr]
      exact (decomp_ids_ne hids hs).2 x hx
    have hrem : removeFirstById s i = a ++ b := by
      rw [hs]
      exact removeFirstById_append b ha hr
    have hnone : findById (a ++ b) i = none := by
      rw [findById_eq_none]
      intro x hx
      rcases List.mem_append.mp hx with hxa | hxb
      · exact ha x hxa
      · exact hb x hxb
    rw [hrem]
    simp [get, hnone]

theorem C8_delete_then_get_witness :
    deleteById [⟨0, "A", "e", "p"⟩, ⟨1, "B", "e", "p"⟩] 5 =
      (.error .notFound, [⟨0, "A", "e", "p"⟩, ⟨1, "B", "e", "p"⟩]) ∧
    deleteById [⟨0, "A", "e", "p"⟩, ⟨1, "B", "e", "p"⟩] 0 =
      (.ok (), [⟨1, "B", "e", "p"⟩]) ∧
    get [⟨1, "B", "e", "p"⟩] 0 = (.error .notFound, [⟨1, "B", "e", "p"⟩]) :=
  ⟨(C8_delete_then_get [⟨0, "A", "e", "p"⟩, ⟨1, "B", "e", "p"⟩] 5
      (by decide)).1 rfl,
   ((C8_delete_then_get [⟨0, "A", "e", "p"⟩, ⟨1, "B", "e", "p"⟩] 0
      (by decide)).2 ⟨0, "A", "e", "p"⟩ rfl).1,
   ((C8_delete_then_get [⟨0, "A", "e", "p"⟩, ⟨1, "B", "e", "p"⟩] 0
      (by decide)).2 ⟨0, "A", "e", "p"⟩ rfl).2⟩

/-- C1 fails as stated: from a two-record store satisfying the uniqueness
invariant, UpdateById renaming record 0 to the `nome` of record 1 succeeds
(no uniqueness re-check is made) and yields a store in which two records
share the `nome` "B". -/
theorem C1_counterexample :
    nomesNodup [⟨0, "A", "e", "p"⟩, ⟨1, "B", "e", "p"⟩] ∧
    patch [⟨0, "A", "e", "p"⟩, ⟨1, "B", "e", "p"⟩] 0 ⟨some "B", none, none⟩ =
      (.ok ⟨0, "B", "e", "p"⟩, [⟨0, "B", "e", "p"⟩, ⟨1, "B", "e", "p"⟩]) ∧
    ¬ nomesNodup
      (patch [⟨0, "A", "e", "p"⟩, ⟨1, "B", "e", "p"⟩] 0
        ⟨some "B", none, none⟩).2 :=
  ⟨by decide, rfl, by decide⟩

/-- C1 (amended): on a store with unique primary keys satisfying the
no-duplicate-`nome` invariant, Create, ListAll, ListPage, GetById, GetByName,
DeleteById and DeleteByName always yield a store that still satisfies it;
UpdateById and UpdateByName preserve it provided the patch's `nome`, when
present, is not the `nome` of a stored record other than the one being
updated. -/
theorem C1_amended_uniqueness_preserved (s : Store) (hids : idsNodup s)
    (hn : nomesNodup s) :
    (∀ newId inp, nomesNodup (post s newId inp).2) ∧
    nomesNodup (queryAll s).2 ∧
    (∀ limit offset, nomesNodup (queryPaginated s limit offset).2) ∧
    (∀ i, nomesNodup (get s i).2) ∧
    (∀ n, nomesNodup (getByNome s n).2) ∧
    (∀ i u, (∀ v, u.nome = some v → ∀ x ∈ s, x.id ≠ i → x.nome ≠ v) →
      nomesNodup (patch s i u).2) ∧
    (∀ n u, (∀ v, u.nome = some v → ∀ x ∈ s, x.nome ≠ n → x.nome ≠ v) →
      nomesNodup (patchByNome s n u).2) ∧
    (∀ i, nomesNodup (deleteById s i).2) ∧
    (∀ n, nomesNodup (deleteByNome s n).2) := by
  refine ⟨?_, ?_, ?_, ?_, ?_, ?_, ?_, ?_, ?_⟩
  · intro newId inp
    cases hf : findByNome s inp.nome with
    | some r => simpa [post, hf] using hn
    | none =>
      have hfresh : ∀ x ∈ s, x.nome ≠ inp.nome := findByNome_eq_none.mp hf
      have hstore : (post s newId inp).2 = s ++ [mkOut newId inp] := by
        simp [post, hf]
      rw [hstore]
      show (List.map Record.nome (s ++ [mkOut newId inp])).Nodup
      rw [List.map_append]
      refine List.Nodup.append hn (by simp) ?_
      intro y hy hy2
      obtain ⟨x, hx, hxn⟩ := List.mem_map.mp hy
      have hy3 : y = inp.nome := by simpa [mkOut] using hy2
      exact hfresh x hx (hxn.trans hy3)
  · cases h : s.isEmpty <;> simpa [queryAll, h] using hn
  · intro limit offset
    simpa [queryPaginated] using hn
  · intro i
    cases hf : findById s i <;> simpa [get, hf] using hn
  · intro n
    cases hf : findByNome s n <;> simpa [getByNome, hf] using hn
  · intro i u hcond
    cases hf : findById s i with
    | none => simpa [patch, hf] using hn
    | some r =>
      obtain ⟨hr, a, b, hs, ha⟩ := findById_decomp hf
      have hb : ∀ x ∈ b, x.id ≠ i := by
        intro x hx
        rw [← hr]
        exact (decomp_ids_ne hids hs).2 x hx
      have hstore : (patch s i u).2 = a ++ applyUpdate r u :: b := by
        simp only [patch, hf]
        rw [hs]
        exact replaceFirstById_append b _ ha hr
      have hmid := decomp_nomes hn hs
      have hnew : (applyUpdate r u).nome ∉
          (a.map Record.nome) ++ (b.map Record.nome) := by
        cases hu : u.nome with
        | none =>
          have h3 : (applyUpdate r u).nome = r.nome := by
            simp [applyUpdate, hu]
          rw [h3]
          exact hmid.1
        | some v =>
          have hv : (applyUpdate r u).nome = v := by
            simp [applyUpdate, hu]
          rw [hv]
          intro hmem
          rcases List.mem_append.mp hmem with hA | hB
          · obtain ⟨x, hx, hxn⟩ := List.mem_map.mp hA
            exact hcond v hu x
              (by rw [hs]; exact List.mem_append.mpr (Or.inl hx))
              (ha x hx) hxn
          · obtain ⟨x, hx, hxn⟩ := List.mem_map.mp hB
            exact hcond v hu x
              (by
                rw [hs]
                exact List.mem_append.mpr (Or.inr (List.mem_cons_of_mem r hx)))
              (hb x hx) hxn
      rw [hstore]
      show (List.map Record.nome (a ++ applyUpdate r u :: b)).Nodup
      rw [List.map_append, List.map_cons]
      exact List.nodup_middle.mpr (List.nodup_cons.mpr ⟨hnew, hmid.2⟩)
  · intro n u hcond
    cases hf : findByNome s n with
    | none => simpa [patchByNome, hf] using hn
    | some r =>
      obtain ⟨hr, a, b, hs, ha⟩ := findByNome_decomp hf
      have hids2 := decomp_ids_ne hids hs
      have hstore : (patchByNome s n u).2 = a ++ applyUpdate r u :: b := by
        simp only [patchByNome, hf]
        rw [hs]
        exact replaceFirstById_append b _ hids2.1 rfl
      have hmid := decomp_nomes hn hs
      have hbn : ∀ x ∈ b, x.nome ≠ n := by
        intro x hx hxe
        rw [← hr] at hxe
        exact hmid.1 (List.mem_append.mpr (Or.inr
          (hxe ▸ List.mem_map_of_mem Record.nome hx)))
      have hnew : (applyUpdate r u).nome ∉
          (a.map Record.nome) ++ (b.map Record.nome) := by
        cases hu : u.nome with
        | none =>
          have h3 : (applyUpdate r u).nome = r.nome := by
            simp [applyUpdate, hu]
          rw [h3]
          exact hmid.1
        | some v =>
          have hv : (applyUpdate r u).nome = v := by
            simp [applyUpdate, hu]
          rw [hv]
          intro hmem
          rcases List.mem_append.mp hmem with hA | hB
          · obtain ⟨x, hx, hxn⟩ := List.mem_map.mp hA
            exact hcond v hu x
              (by rw [hs]; exact List.mem_append.mpr (Or.inl hx))
              (ha x hx) hxn
          · obtain ⟨x, hx, hxn⟩ := List.mem_map.mp hB
            exact hcond v hu x
              (by
                rw [hs]
                exact List.mem_append.mpr (Or.inr (List.mem_cons_of_mem r hx)))
              (hbn x hx) hxn
      rw [hstore]
      show (List.map Record.nome (a ++ applyUpdate r u :: b)).Nodup
      rw [List.map_append, List.map_cons]
      exact List.nodup_middle.mpr (List.nodup_cons.mpr ⟨hnew, hmid.2⟩)
  · intro i
    cases hf : findById s i with
    | none => simpa [deleteById, hf] using hn
    | some r =>
      have hstore : (deleteById s i).2 = removeFirstById s i := by
        simp [deleteById, hf]
      rw [hstore]
      exact List.Nodup.sublist
        ((removeFirstById_sublist s i).map Record.nome) hn
  · intro n
    cases hf : findByNome s n with
    | none => simpa [deleteByNome, hf] using hn
    | some r =>
      have hstore : (deleteByNome s n).2 = removeFirstById s r.id := by
        simp [deleteByNome, hf]
      rw [hstore]
      exact List.Nodup.sublist
        ((removeFirstById_sublist s r.id).map Record.nome) hn

theorem C1_amended_uniqueness_preserved_witness :
    nomesNodup (post [⟨0, "A", "e", "p"⟩, ⟨1, "B", "e", "p"⟩] 2
      ⟨"C", "e", "p"⟩).2 ∧
    nomesNodup (patch [⟨0, "A", "e", "p"⟩, ⟨1, "B", "e", "p"⟩] 0
      ⟨some "C", none, none⟩).2 ∧
    nomesNodup (deleteById [⟨0, "A", "e", "p"⟩, ⟨1, "B", "e", "p"⟩] 0).2 :=
  ⟨(C1_amended_uniqueness_preserved [⟨0, "A", "e", "p"⟩, ⟨1, "B", "e", "p"⟩]
      (by decide) (by decide)).1 2 ⟨"C", "e", "p"⟩,
   (C1_amended_uniqueness_preserved [⟨0, "A", "e", "p"⟩, ⟨1, "B", "e", "p"⟩]
      (by decide) (by decide)).2.2.2.2.2.1 0 ⟨some "C", none, none⟩ (by
        intro v hv x hx hxid
        simp only [RecordUpdate.nome] at hv
        injection hv with hv2
        subst hv2
        revert hxid
        revert hx
        revert x
        decide),
   (C1_amended_uniqueness_preserved [⟨0, "A", "e", "p"⟩, ⟨1, "B", "e", "p"⟩]
      (by decide) (by decide)).2.2.2.2.2.2.2.1 0⟩

end WorkoutApi
